import Mathlib

/-
Formal model of the caching and rate-limiting infrastructure of a
FastAPI-based realworld example application.

The development shallowly embeds the Python modules

  app/cache/keys.py          (cache key builders)
  app/cache/monitoring.py    (hit/miss counters and snapshot)
  app/cache/decorators.py    (cache-aside wrapper)
  app/cache/invalidation.py  (pattern-based invalidation over SCAN/DEL)
  app/core/rate_limiter.py   (sliding-window rate limiter)
  app/middleware/rate_limiting.py (per-route quotas, headers, 429 responses)

into Lean.  Python strings are Lean strings; Python string operations
(split, strip, startswith, format) are re-implemented on the character
lists so that everything evaluates inside the kernel.  Python integers
are Int or Nat; floating point time values are modelled as rationals
with explicit truncation where Python calls int().  The external Redis
store is modelled as an association list, and SCAN is modelled over a
fixed array of key slots (a deleted slot becomes empty but slots never
move), matching the Redis guarantee that a full cursor sweep visits
every key that is present for the whole sweep.
-/

/-! ### Python semantics helpers -/

/-- The character `{` (written by code to keep brace handling explicit). -/
def lbrace : Char := Char.ofNat 123

/-- The character `}`. -/
def rbrace : Char := Char.ofNat 125

/-- Python truthiness of an optional string: None and the empty string are falsy. -/
def pyTruthy : Option String → Bool
  | none => false
  | some s => !s.data.isEmpty

/-- Python `int()` applied to a real number: truncation toward zero. -/
def pyInt (q : ℚ) : ℤ := Int.tdiv q.num (q.den : ℤ)

/-- Python `s.split(sep)` for a one-character separator, on character lists. -/
def splitChars (sep : Char) : List Char → List (List Char)
  | [] => [[]]
  | c :: cs =>
    let r := splitChars sep cs
    if c = sep then [] :: r
    else
      match r with
      | h :: t => (c :: h) :: t
      | [] => [[c]]

/-- Python `s.split(sep)` for a one-character separator. -/
def pySplit (sep : Char) (s : String) : List String :=
  (splitChars sep s.data).map String.mk

/-- Whitespace characters removed by Python `str.strip()`. -/
def pySpace (c : Char) : Bool :=
  c = ' ' || c = '\t' || c = '\n' || c = '\r' || c = Char.ofNat 11 || c = Char.ofNat 12

/-- Python `s.strip()`. -/
def pyStrip (s : String) : String :=
  String.mk (((s.data.dropWhile pySpace).reverse.dropWhile pySpace).reverse)

/-- Python `s.startswith(pre)`. -/
def pyStartsWith (s pre : String) : Bool := List.isPrefixOf pre.data s.data

/-- Python `s.endswith(suf)`. -/
def pyEndsWith (s suf : String) : Bool := List.isSuffixOf suf.data s.data

/-! ### A small JSON model (stdlib json + pydantic serialization)

`Json`, `JsonList` and `JsonFields` are mutually inductive so that all
recursions over them are structural (and hence evaluate in the kernel). -/

mutual

inductive Json : Type where
  | num : ℤ → Json
  | str : String → Json
  | arr : JsonList → Json
  | obj : JsonFields → Json

inductive JsonList : Type where
  | nil : JsonList
  | cons : Json → JsonList → JsonList

inductive JsonFields : Type where
  | nil : JsonFields
  | cons : String → Json → JsonFields → JsonFields

end

/-- Build a `JsonList` from a Lean list. -/
def listOfJson : List Json → JsonList
  | [] => JsonList.nil
  | j :: rest => JsonList.cons j (listOfJson rest)

/-- Build a `JsonFields` from a Lean association list. -/
def fieldsOfJson : List (String × Json) → JsonFields
  | [] => JsonFields.nil
  | kv :: rest => JsonFields.cons kv.1 kv.2 (fieldsOfJson rest)

/-- The escapes `json.dumps` applies inside string literals; the quote and
backslash escapes are the only ones exercised by the values in this model. -/
def escChar (c : Char) : List Char :=
  if c = '"' then ['\\', '"']
  else if c = '\\' then ['\\', '\\']
  else [c]

/-- Escape the body of a JSON string literal. -/
def escapeJson (s : String) : String :=
  String.mk (s.data.foldr (fun c acc => escChar c ++ acc) [])

mutual

/-- Render a JSON value the way Python `json.dumps` does with its default
separators (", " between items, ": " after keys). -/
def Json.render : Json → String
  | Json.num n => toString n
  | Json.str s => "\"" ++ escapeJson s ++ "\""
  | Json.arr l => "[" ++ JsonList.render l ++ "]"
  | Json.obj fs => "\x7b" ++ JsonFields.render fs ++ "\x7d"

def JsonList.render : JsonList → String
  | JsonList.nil => ""
  | JsonList.cons j JsonList.nil => Json.render j
  | JsonList.cons j (JsonList.cons j2 rest) =>
      Json.render j ++ ", " ++ JsonList.render (JsonList.cons j2 rest)

def JsonFields.render : JsonFields → String
  | JsonFields.nil => ""
  | JsonFields.cons k v JsonFields.nil => "\"" ++ escapeJson k ++ "\": " ++ Json.render v
  | JsonFields.cons k v (JsonFields.cons k2 v2 rest) =>
      "\"" ++ escapeJson k ++ "\": " ++ Json.render v ++ ", " ++
        JsonFields.render (JsonFields.cons k2 v2 rest)

end

/-! ### app/cache/keys.py — CacheKeys -/

namespace CacheKeys

/-- `article_detail`: `article:detail:{slug}` or `article:detail:{slug}:user:{username}`. -/
def article_detail (slug : String) (username : Option String) : String :=
  if pyTruthy username then "article:detail:" ++ slug ++ ":user:" ++ username.getD ""
  else "article:detail:" ++ slug

/-- `articles_list`: key parts `["articles:list", filter-segment, "page:p", "limit:l"]`
joined with `:` (the join separators are merged into the adjacent string
literals here); the filter segment is `tag:{tag}`, else `author:{author}`,
else `favorited:{favorited}`, else `all`, by Python truthiness. -/
def articles_list (page limit : ℤ) (tag author favorited : Option String) : String :=
  let filterSeg : String :=
    if pyTruthy tag then "tag:" ++ tag.getD ""
    else if pyTruthy author then "author:" ++ author.getD ""
    else if pyTruthy favorited then "favorited:" ++ favorited.getD ""
    else "all"
  "articles:list:" ++ filterSeg ++ ":page:" ++ toString page ++ ":limit:" ++ toString limit

/-- `articles_feed`: `articles:list:feed:{username}:page:{p}:limit:{l}`. -/
def articles_feed (username : String) (page limit : ℤ) : String :=
  "articles:list:feed:" ++ username ++ ":page:" ++ toString page ++ ":limit:" ++ toString limit

/-- `user_profile`: `user:profile:{username}`. -/
def user_profile (username : String) : String := "user:profile:" ++ username

/-- `user_follower_count`: `user:profile:{username}:follower_count`. -/
def user_follower_count (username : String) : String :=
  "user:profile:" ++ username ++ ":follower_count"

/-- `user_following_count`: `user:profile:{username}:following_count`. -/
def user_following_count (username : String) : String :=
  "user:profile:" ++ username ++ ":following_count"

/-- `comments_list`: `comments:article:{slug}:page:{p}:limit:{l}`. -/
def comments_list (slug : String) (page limit : ℤ) : String :=
  "comments:article:" ++ slug ++ ":page:" ++ toString page ++ ":limit:" ++ toString limit

/-- `tags_all`: `tags:all`. -/
def tags_all : String := "tags:all"

end CacheKeys

/-- The branch of `articles_list` selected by Python truthiness, in source
order: 0 = tag, 1 = author, 2 = favorited, 3 = no filter. -/
def filterKind (tag author favorited : Option String) : Fin 4 :=
  if pyTruthy tag then 0
  else if pyTruthy author then 1
  else if pyTruthy favorited then 2
  else 3

/-- The fixed text that begins an `articles_list` key for each filter kind. -/
def segHead : Fin 4 → String
  | 0 => "articles:list:tag:"
  | 1 => "articles:list:author:"
  | 2 => "articles:list:favorited:"
  | 3 => "articles:list:all:"

/-! ### app/cache/monitoring.py — CacheMonitor -/

/-- `CacheMonitor.record_hit` acting on the `(hits, misses)` counter pair. -/
def record_hit (s : ℕ × ℕ) : ℕ × ℕ := (s.1 + 1, s.2)

/-- `CacheMonitor.record_miss`. -/
def record_miss (s : ℕ × ℕ) : ℕ × ℕ := (s.1, s.2 + 1)

/-- Replay a sequence of monitor events (`true` = hit, `false` = miss)
starting from the initial zero counters. -/
def applyEvents (evs : List Bool) : ℕ × ℕ :=
  evs.foldl (fun s e => if e then record_hit s else record_miss s) (0, 0)

/-- Model of the Python format `f"{q:.2%}"` for a nonnegative ratio `q`:
`q` is scaled to hundredths of a percent, rounded to nearest with ties to
even, and printed with exactly two fractional digits and a `%` sign.
(The Python code formats a float; this model applies the same rounding to
the exact rational value.) -/
def formatPct (q : ℚ) : String :=
  let N : ℤ := q.num * 10000
  let D : ℤ := (q.den : ℤ)
  let fl : ℤ := Int.fdiv N D
  let r : ℤ := N - fl * D
  let n : ℤ :=
    if 2 * r < D then fl
    else if D < 2 * r then fl + 1
    else if fl % 2 = 0 then fl else fl + 1
  let m : ℕ := n.toNat
  toString (m / 100) ++ "." ++ (if m % 100 < 10 then "0" else "") ++ toString (m % 100) ++ "%"

/-- The snapshot returned by `CacheMonitor.get_stats`. -/
structure CacheStats where
  hits : ℕ
  misses : ℕ
  total : ℕ
  hit_rate : String
  deriving DecidableEq

/-- `CacheMonitor.get_stats`: `hit_rate = hits / total if total > 0 else 0`,
formatted with `f"{hit_rate:.2%}"`. -/
def get_stats (hits misses : ℕ) : CacheStats :=
  let total := hits + misses
  let hit_rate : ℚ := if 0 < total then (hits : ℚ) / (total : ℚ) else 0
  ⟨hits, misses, total, formatPct hit_rate⟩

/-! ### app/cache/decorators.py — the cache decorator -/

/-- The configuration surface the decorator consumes. -/
structure AppSettings where
  cache_enabled : Bool
  cache_default_ttl : ℕ
  deriving DecidableEq

/-- The Redis string keyspace used by the cache: entries `(key, ttl, value)`
written with SETEX. -/
abbrev CacheStore : Type := List (String × ℕ × String)

/-- Redis GET on the cache keyspace. -/
def storeGet : CacheStore → String → Option String
  | [], _ => none
  | e :: rest, key => if e.1 = key then some e.2.2 else storeGet rest key

/-- Redis SETEX: replace the entry for the key, or append a fresh one. -/
def setex : CacheStore → String → ℕ → String → CacheStore
  | [], key, ttl, v => [(key, ttl, v)]
  | e :: rest, key, ttl, v =>
    if e.1 = key then (key, ttl, v) :: rest else e :: setex rest key ttl v

/-- Process state seen by the decorator: the store plus the monitor counters. -/
structure CacheState where
  store : CacheStore
  hits : ℕ
  misses : ℕ

/-- Scan a Python format placeholder: consume characters up to the closing
brace, returning the placeholder name and the remaining characters. -/
def splitPh : List Char → List Char → Option (List Char × List Char)
  | [], _ => none
  | c :: cs, acc => if c = rbrace then some (acc.reverse, cs) else splitPh cs (c :: acc)

/-- Python `pattern.format(**kwargs)` restricted to plain `{name}`
placeholders, with fuel for structural recursion (`formatKey` supplies
fuel equal to the pattern length, which always suffices since every step
consumes at least one character).  `none` models the KeyError raised on a
missing placeholder name (and the error on an unterminated placeholder). -/
def formatGo (kwargs : List (String × String)) : ℕ → List Char → Option (List Char)
  | _, [] => some []
  | 0, _ :: _ => none
  | fuel + 1, c :: cs =>
    if c = lbrace then
      match splitPh cs [] with
      | none => none
      | some (name, rest) =>
        match kwargs.lookup (String.mk name) with
        | none => none
        | some v => (formatGo kwargs fuel rest).map (fun t => v.data ++ t)
    else
      (formatGo kwargs fuel cs).map (fun t => c :: t)

/-- `key_pattern.format(**kwargs)`. -/
def formatKey (pattern : String) (kwargs : List (String × String)) : Option String :=
  (formatGo kwargs pattern.data.length pattern.data).map String.mk

/-- The cache key computed inside the decorated wrapper.  Positional
arguments are in scope at that point in the source but do not enter the
key; only the keyword arguments are rendered into the pattern. -/
def wrapperCacheKey (keyPattern : String) (args : List String)
    (kwargs : List (String × String)) : Option String :=
  formatKey keyPattern kwargs

/-- The declared return annotation shape the decorator inspects:
a pydantic model, a list of pydantic models, or anything else. -/
inductive RetShape : Type where
  | model : RetShape
  | listModel : RetShape
  | other : RetShape
  deriving DecidableEq

/-- Values a wrapped coroutine can produce: `none` is Python `None`,
`model`/`listModel` are pydantic results, `other` is any other
JSON-serializable value. -/
inductive PyVal (α : Type) : Type where
  | none : PyVal α
  | model : α → PyVal α
  | listModel : List α → PyVal α
  | other : Json → PyVal α

/-- Deserialize one element of a cached list: the stored element must be a
JSON string holding the serialized model, which is fed to `parse_raw`. -/
def parseItems {α : Type} (parseRaw : String → Option α) : JsonList → Option (List α)
  | JsonList.nil => some []
  | JsonList.cons (Json.str s) rest =>
    match parseRaw s with
    | none => none
    | some m => (parseItems parseRaw rest).map (fun l => m :: l)
  | JsonList.cons _ _ => none

/-- The hit branch of the decorator: deserialize the cached payload
according to the declared return shape.  `parse_raw` and `json.loads` are
library functions outside this repository and are passed in as parameters;
`Option` models the exception on a malformed payload. -/
def hitValue {α : Type} (shape : RetShape) (parseRaw : String → Option α)
    (jsonLoads : String → Option Json) (cached : String) : Option (PyVal α) :=
  match shape with
  | RetShape.model => (parseRaw cached).map PyVal.model
  | RetShape.listModel =>
    match jsonLoads cached with
    | some (Json.arr items) => (parseItems parseRaw items).map PyVal.listModel
    | _ => none
  | RetShape.other => (jsonLoads cached).map PyVal.other

/-- The serialization the decorator performs before SETEX.  `encode`
models the field set of `pydantic .json()`, so a model serializes to a
JSON object.  A nonempty list of models serializes to
`json.dumps([item.json() for item in result])`, a JSON array whose
elements are the strings produced by `.json()`; an empty list (or any
other value) falls through to plain `json.dumps(result)`.  The `none`
case is never reached: the caller writes only non-None results. -/
def serializeResult {α : Type} (encode : α → JsonFields) : PyVal α → String
  | PyVal.none => ""
  | PyVal.model m => Json.render (Json.obj (encode m))
  | PyVal.listModel l =>
    if l.isEmpty then Json.render (Json.arr JsonList.nil)
    else Json.render (Json.arr (listOfJson
      (l.map (fun m => Json.str (Json.render (Json.obj (encode m)))))))
  | PyVal.other j => Json.render j

/-- Modelled from the spec: serialization of a list of objects as a JSON
array of JSON objects (the shape section 4.3 of the spec prescribes for
array results). -/
def specListSerialization {α : Type} (encode : α → JsonFields) (l : List α) : String :=
  Json.render (Json.arr (listOfJson (l.map (fun m => Json.obj (encode m)))))

/-- One invocation of the wrapper produced by the `cache` decorator.
Returns the produced value (`none` models a raised exception), the new
process state, and the number of times the wrapped function was invoked.
Mirrors the source: bypass when caching is disabled; render the key from
the keyword arguments; GET; on a truthy cached value record a hit and
deserialize; otherwise record a miss, call the function, and SETEX any
non-None result under the explicit or default TTL. -/
def cacheWrapperRun {α : Type} (settings : AppSettings) (keyPattern : String)
    (ttl : Option ℕ) (shape : RetShape) (parseRaw : String → Option α)
    (jsonLoads : String → Option Json) (encode : α → JsonFields)
    (f : List String → List (String × String) → PyVal α)
    (args : List String) (kwargs : List (String × String))
    (st : CacheState) : Option (PyVal α) × CacheState × ℕ :=
  if !settings.cache_enabled then (some (f args kwargs), st, 1)
  else
    match wrapperCacheKey keyPattern args kwargs with
    | none => (none, st, 0)
    | some cache_key =>
      match storeGet st.store cache_key with
      | some cached =>
        if !cached.data.isEmpty then
          (hitValue shape parseRaw jsonLoads cached,
           { st with hits := st.hits + 1 }, 0)
        else
          cacheMissRun settings keyPattern ttl encode f args kwargs st cache_key
      | none =>
        cacheMissRun settings keyPattern ttl encode f args kwargs st cache_key
where
  /-- The miss path: record a miss, invoke the wrapped function once, and
  store a non-None result with the explicit TTL or the configured default. -/
  cacheMissRun (settings : AppSettings) (keyPattern : String) (ttl : Option ℕ)
      (encode : α → JsonFields)
      (f : List String → List (String × String) → PyVal α)
      (args : List String) (kwargs : List (String × String))
      (st : CacheState) (cache_key : String) : Option (PyVal α) × CacheState × ℕ :=
    let st1 : CacheState := { st with misses := st.misses + 1 }
    let result := f args kwargs
    match result with
    | PyVal.none => (some PyVal.none, st1, 1)
    | r =>
      (some r,
       { st1 with store := setex st1.store cache_key (ttl.getD settings.cache_default_ttl)
                    (serializeResult encode r) }, 1)

/-! ### app/cache/invalidation.py — invalidate_cache

The Redis keyspace scanned by SCAN is modelled as a fixed array of key
slots: a present key occupies a slot, DEL empties the slot, and slots
never move.  SCAN with a cursor and `count=100` visits the slots in
batches of 100 and returns cursor 0 when the sweep is complete, which is
how the source loop terminates.  MATCH patterns are modelled with the
trailing `*` wildcard, the only form the application uses. -/

/-- Redis MATCH restricted to a trailing `*` wildcard (else exact match). -/
def keyMatches (pattern key : String) : Bool :=
  if pyEndsWith pattern "*" then List.isPrefixOf pattern.data.dropLast key.data
  else pattern == key

/-- Does the key match any of the patterns. -/
def matchAny (patterns : List String) (k : String) : Bool :=
  patterns.any (fun p => keyMatches p k)

/-- Empty every slot whose key satisfies the predicate. -/
def purgeBy (P : String → Bool) (slots : List (Option String)) : List (Option String) :=
  slots.map (fun s =>
    match s with
    | some k => if P k then none else some k
    | none => none)

/-- Redis `DEL key1 key2 ...`: empty the slots named by the keys. -/
def deleteKeys (slots : List (Option String)) (keys : List String) : List (Option String) :=
  purgeBy (fun k => keys.contains k) slots

/-- The keys currently present in the keyspace. -/
def present (slots : List (Option String)) : List String := slots.filterMap id

/-- The `while True` SCAN/DEL loop of `invalidate_cache` for one pattern:
SCAN the batch of (up to) 100 slots at the cursor, DEL the matching keys
found there (adding the deleted count to the accumulator), advance the
cursor, and stop when SCAN reports cursor 0. -/
def scanDeleteLoop (pattern : String) (slots : List (Option String)) (cursor acc : ℕ) :
    List (Option String) × ℕ :=
  let keys := (((slots.drop cursor).take 100).filterMap id).filter (keyMatches pattern)
  let slots' := if keys.isEmpty then slots else deleteKeys slots keys
  let acc' := if keys.isEmpty then acc else acc + keys.length
  if cursor + 100 < slots.length then
    scanDeleteLoop pattern slots' (cursor + 100) acc'
  else
    (slots', acc')
termination_by slots.length - cursor
decreasing_by
  split
  · omega
  · simp only [deleteKeys, purgeBy, List.length_map]
    omega

/-- `invalidate_cache(patterns)`: run the SCAN/DEL loop for each pattern in
turn, accumulating the total number of deleted keys. -/
def invalidate_cache (patterns : List String) (slots : List (Option String)) :
    List (Option String) × ℕ :=
  patterns.foldl (fun acc pattern => scanDeleteLoop pattern acc.1 0 acc.2) (slots, 0)

/-! ### app/core/rate_limiter.py — RateLimiter -/

/-- The metadata returned with every rate-limit decision. -/
structure RateLimitInfo where
  limit : ℤ
  remaining : ℤ
  reset_time : ℤ
  deriving DecidableEq

/-- The Redis counter keyspace: entries `(key, count, ttl)`.  INCR creates a
counter at 1 (ttl 0 meaning no expiry), EXPIRE sets the ttl field. -/
abbrev RLStore : Type := List (String × ℕ × ℤ)

/-- `RateLimiter._generate_key`. -/
def generateKey (identifier endpoint : String) (window : ℤ) : String :=
  "rate_limit:" ++ identifier ++ ":" ++ endpoint ++ ":" ++ toString window

/-- Redis GET on a counter key. -/
def rlGet : RLStore → String → Option ℕ
  | [], _ => none
  | e :: rest, key => if e.1 = key then some e.2.1 else rlGet rest key

/-- Redis INCR. -/
def rlIncr : RLStore → String → RLStore
  | [], key => [(key, 1, 0)]
  | e :: rest, key =>
    if e.1 = key then (key, e.2.1 + 1, e.2.2) :: rest else e :: rlIncr rest key

/-- Redis EXPIRE (a no-op on a missing key). -/
def rlExpire : RLStore → String → ℤ → RLStore
  | [], _, _ => []
  | e :: rest, key, t =>
    if e.1 = key then (key, e.2.1, t) :: rest else e :: rlExpire rest key t

/-- `RateLimiter._get_count`: a missing counter reads as 0. -/
def getCount (store : RLStore) (identifier endpoint : String) (window : ℤ) : ℕ :=
  (rlGet store (generateKey identifier endpoint window)).getD 0

/-- `RateLimiter.check`.  `now` is the value of `time.time()` (the source
reads the clock twice in close succession; the model uses one instant).
`int(time.time()) // window * window` is the current window start; the
weighted count blends the two adjacent window counters; an admitted
request INCRs the current counter and sets its expiry to `window * 2`. -/
def check (store : RLStore) (identifier endpoint : String) (limit window : ℤ)
    (now : ℚ) : (Bool × RateLimitInfo) × RLStore :=
  let current_window : ℤ := Int.fdiv (pyInt now) window * window
  let previous_window : ℤ := current_window - window
  let current_count : ℕ := getCount store identifier endpoint current_window
  let previous_count : ℕ := getCount store identifier endpoint previous_window
  let elapsed : ℚ := now - (current_window : ℚ)
  let percentage : ℚ := elapsed / (window : ℚ)
  let weighted_count : ℚ := (current_count : ℚ) + (previous_count : ℚ) * (1 - percentage)
  let allowed : Bool := decide (weighted_count < (limit : ℚ))
  let key := generateKey identifier endpoint current_window
  let store' : RLStore :=
    if allowed then rlExpire (rlIncr store key) key (window * 2) else store
  let remaining : ℤ := max 0 (limit - pyInt weighted_count - (if allowed then 1 else 0))
  let reset_time : ℤ := current_window + window
  ((allowed, ⟨limit, remaining, reset_time⟩), store')

/-- Run a sequence of checks for one `(identifier, endpoint, limit, window)`
against the store, collecting each decision in order. -/
def runChecks (identifier endpoint : String) (limit window : ℤ) (times : List ℚ)
    (store : RLStore) : RLStore × List (Bool × RateLimitInfo) :=
  times.foldl
    (fun acc t =>
      let r := check acc.1 identifier endpoint limit window t
      (r.2, acc.2 ++ [r.1]))
    (store, [])

/-! ### app/middleware/rate_limiting.py — RateLimitMiddleware -/

/-- One per-route quota configuration. -/
structure RateLimitConfig where
  limit : ℤ
  window : ℤ
  dimension : String
  deriving DecidableEq

/-- The key/value pairs of the dict literal in `_load_limit_configs`, in
source order.  The literal binds the key "/api/articles" twice. -/
def loadLimitConfigs : List (String × RateLimitConfig) :=
  [("/api/users/login", ⟨5, 60, "ip"⟩),
   ("/api/users", ⟨3, 3600, "ip"⟩),
   ("/api/articles", ⟨10, 3600, "user"⟩),
   ("/api/articles/\x7bslug\x7d/comments", ⟨20, 3600, "user"⟩),
   ("/api/articles/\x7bslug\x7d/favorite", ⟨30, 60, "user"⟩),
   ("/api/articles", ⟨100, 60, "ip"⟩),
   ("/api/articles/\x7bslug\x7d", ⟨60, 60, "ip"⟩),
   ("/api/profiles/\x7busername\x7d", ⟨60, 60, "ip"⟩)]

/-- Python dict insertion: a repeated key keeps its original position and
takes the new value. -/
def dictInsert {α : Type} : List (String × α) → String → α → List (String × α)
  | [], k, v => [(k, v)]
  | e :: rest, k, v => if e.1 = k then (k, v) :: rest else e :: dictInsert rest k v

/-- Evaluate a dict literal: insert the pairs left to right. -/
def dictOf {α : Type} (l : List (String × α)) : List (String × α) :=
  l.foldl (fun d kv => dictInsert d kv.1 kv.2) []

/-- `self.limit_configs`, the effective quota table. -/
def limit_configs : List (String × RateLimitConfig) := dictOf loadLimitConfigs

/-- `"{" in pattern and "}" in pattern`. -/
def hasBraces (pattern : String) : Bool :=
  pattern.data.contains lbrace && pattern.data.contains rbrace

/-- The parametrized-path match of `_get_rate_limit_config`: split pattern
and path on `/`; they must have the same number of segments, and each
pattern segment either is wrapped in braces (matches anything) or must
equal the path segment. -/
def segMatch (pattern path : String) : Bool :=
  let patternParts := pySplit '/' pattern
  let pathParts := pySplit '/' path
  patternParts.length == pathParts.length &&
    (patternParts.zip pathParts).all
      (fun ab =>
        (pyStartsWith ab.1 (String.mk [lbrace]) && pyEndsWith ab.1 (String.mk [rbrace])) ||
          ab.1 == ab.2)

/-- `_get_rate_limit_config`: exact path key first, then the first
brace-parametrized pattern that matches, else the unmetered default
`limit=0, window=60, dimension="ip"`. -/
def getRateLimitConfig (configs : List (String × RateLimitConfig)) (path : String) :
    RateLimitConfig :=
  match configs.lookup path with
  | some c => c
  | none =>
    match configs.find? (fun pc => hasBraces pc.1 && segMatch pc.1 path) with
    | some pc => pc.2
    | none => ⟨0, 60, "ip"⟩

/-- The parts of the inbound request the middleware consults. -/
structure PyRequest where
  path : String
  xForwardedFor : Option String
  clientHost : String
  userId : Option ℤ

/-- `_get_ip_identifier`: first address of a truthy X-Forwarded-For header,
stripped; else the peer address. -/
def getIpIdentifier (req : PyRequest) : String :=
  if pyTruthy req.xForwardedFor then
    "ip:" ++ pyStrip ((pySplit ',' (req.xForwardedFor.getD "")).headD "")
  else "ip:" ++ req.clientHost

/-- `_get_identifier`: the user dimension uses the authenticated user id
when truthy and falls back to the IP identifier; any other dimension uses
the IP identifier. -/
def getIdentifier (req : PyRequest) (config : RateLimitConfig) : String :=
  if config.dimension == "user" then
    match req.userId with
    | some uid => if uid ≠ 0 then "user:" ++ toString uid else getIpIdentifier req
    | none => getIpIdentifier req
  else if config.dimension == "ip" then getIpIdentifier req
  else getIpIdentifier req

/-- A response flowing through the middleware: status, headers, and the
JSON body for the rejection response (`none` for pass-through bodies). -/
structure PyResponse where
  status : ℕ
  headers : List (String × String)
  body : Option Json

/-- Read a response header. -/
def headerGet : List (String × String) → String → Option String
  | [], _ => none
  | e :: rest, k => if e.1 = k then some e.2 else headerGet rest k

/-- Set a response header (replace in place or append). -/
def headerSet : List (String × String) → String → String → List (String × String)
  | [], k, v => [(k, v)]
  | e :: rest, k, v => if e.1 = k then (k, v) :: rest else e :: headerSet rest k v

/-- `_rate_limit_response`: status 429 with the structured JSON body. -/
def rateLimitResponse (retry_after : ℤ) : PyResponse :=
  ⟨429, [],
   some (Json.obj (fieldsOfJson
     [("error", Json.str "rate_limit_exceeded"),
      ("message", Json.str "Too many requests. Please try again later."),
      ("retry_after", Json.num retry_after)]))⟩

/-- `RateLimitMiddleware.dispatch`.  `nextResp` is the response the rest of
the pipeline would produce (`call_next`); `now` is the clock instant.
Static paths bypass everything; a resolved config with limit 0 is
unmetered; otherwise the limiter decides, a rejection is answered by
`_rate_limit_response(int(reset_time - time.time()))`, and the three
X-RateLimit headers are attached to whichever response goes out. -/
def dispatch (req : PyRequest) (now : ℚ) (store : RLStore) (nextResp : PyResponse) :
    PyResponse × RLStore :=
  if pyStartsWith req.path "/static" then (nextResp, store)
  else
    let config := getRateLimitConfig limit_configs req.path
    if config.limit == 0 then (nextResp, store)
    else
      let identifier := getIdentifier req config
      let res := check store identifier req.path config.limit config.window now
      let allowed := res.1.1
      let info := res.1.2
      let response :=
        if allowed then nextResp
        else rateLimitResponse (pyInt ((info.reset_time : ℚ) - now))
      let response2 : PyResponse :=
        { response with
          headers :=
            headerSet
              (headerSet
                (headerSet response.headers "X-RateLimit-Limit" (toString info.limit))
                "X-RateLimit-Remaining" (toString info.remaining))
              "X-RateLimit-Reset" (toString info.reset_time) }
      (response2, res.2)

/-- The limiter decision `dispatch` computes for a metered request: the
resolved config, the derived identifier, and the `check` outcome. -/
def middlewareDecision (req : PyRequest) (now : ℚ) (store : RLStore) :
    Bool × RateLimitInfo :=
  (check store (getIdentifier req (getRateLimitConfig limit_configs req.path)) req.path
    (getRateLimitConfig limit_configs req.path).limit
    (getRateLimitConfig limit_configs req.path).window now).1

/-! ### Helper lemmas -/

theorem strExt {s t : String} (h : s.data = t.data) : s = t := String.ext_iff.mpr h

theorem applyEvents_go (evs : List Bool) : ∀ s : ℕ × ℕ,
    evs.foldl (fun s e => if e then record_hit s else record_miss s) s =
      (s.1 + evs.countP (fun e => e), s.2 + evs.countP (fun e => !e)) := by
  induction evs with
  | nil => intro s; simp
  | cons e rest ih =>
    intro s
    rw [List.foldl_cons, ih]
    cases e <;>
      simp [record_hit, record_miss, List.countP_cons, Prod.ext_iff] <;> omega

/-! ### Claim C5 — profile cache keys -/

/-- C5 counterexample: the profile key builders do not return the strings
`profile:{username}`, `profile:{username}:follower_count`,
`profile:{username}:following_count` claimed by the spec; at
username "alice" they return `user:profile:alice` (and the two count
variants of it) instead. -/
theorem profile_keys_counterexample :
    CacheKeys.user_profile "alice" = "user:profile:alice" ∧
    CacheKeys.user_profile "alice" ≠ "profile:alice" ∧
    CacheKeys.user_follower_count "alice" ≠ "profile:alice:follower_count" ∧
    CacheKeys.user_following_count "alice" ≠ "profile:alice:following_count" := by
  decide

/-- C5 (amended): for every username the profile key builders return
exactly `user:profile:{username}`, `user:profile:{username}:follower_count`
and `user:profile:{username}:following_count`; the two counter keys extend
the profile key. -/
theorem profile_keys_spec (u : String) :
    CacheKeys.user_profile u = "user:profile:" ++ u ∧
    CacheKeys.user_follower_count u = CacheKeys.user_profile u ++ ":follower_count" ∧
    CacheKeys.user_following_count u = CacheKeys.user_profile u ++ ":following_count" :=
  ⟨rfl, rfl, rfl⟩

/-! ### Claim C6 — duplicate quota key, last registration wins -/

/-- C6: the effective quota table binds the literal key `/api/articles`
exactly once, to the last registered configuration (limit 100 per
60-second window on the ip dimension), so resolving the exact path
`/api/articles` yields that configuration and never the earlier
10-per-hour user-dimension entry. -/
theorem articles_quota_last_wins :
    limit_configs.countP (fun kv => kv.1 == "/api/articles") = 1 ∧
    getRateLimitConfig limit_configs "/api/articles" = ⟨100, 60, "ip"⟩ ∧
    (⟨100, 60, "ip"⟩ : RateLimitConfig) ≠ ⟨10, 3600, "user"⟩ := by
  decide

/-! ### Claim C4 — monitor accounting and snapshot -/

/-- C4 counterexample: with no recorded samples the snapshot reports the
hit rate as the string "0.00%", not "0%" as the claim states. -/
theorem monitor_stats_counterexample :
    (get_stats 0 0).hits = 0 ∧ (get_stats 0 0).misses = 0 ∧
    (get_stats 0 0).total = 0 ∧
    (get_stats 0 0).hit_rate = "0.00%" ∧ (get_stats 0 0).hit_rate ≠ "0%" := by
  decide

/-- C4 (amended): after h hits and m misses in any interleaving the
snapshot reports hits = h, misses = m, total = h + m; with no samples the
hit rate is the string "0.00%" (two fractional digits, not "0%"); with
samples it is the ratio h/(h+m) formatted as a percentage with two
fractional digits (the model applies the format to the exact rational
value of the quotient the code computes). -/
theorem monitor_stats_spec (evs : List Bool) (h m : ℕ)
    (hh : evs.countP (fun e => e) = h) (hm : evs.countP (fun e => !e) = m) :
    applyEvents evs = (h, m) ∧
    (get_stats h m).hits = h ∧ (get_stats h m).misses = m ∧
    (get_stats h m).total = h + m ∧
    (get_stats 0 0).hit_rate = "0.00%" ∧
    (0 < h + m → (get_stats h m).hit_rate = formatPct ((h : ℚ) / ((h : ℚ) + (m : ℚ)))) := by
  subst hh hm
  refine ⟨?_, rfl, rfl, rfl, by decide, ?_⟩
  · unfold applyEvents
    rw [applyEvents_go]
    simp
  · intro hpos
    simp only [get_stats, if_pos hpos]
    congr 1
    push_cast
    ring

/-- C4 witness: replaying hit, miss, hit gives counters (2, 1). -/
theorem monitor_stats_spec_witness : applyEvents [true, false, true] = (2, 1) :=
  (monitor_stats_spec [true, false, true] 2 1 (by decide) (by decide)).1

/-! ### Claim C8 — articles_list determinism and filter-kind distinctness -/

theorem segHead_len16 : ∀ i : Fin 4, 16 ≤ (segHead i).data.length := by decide

theorem segHead_take16_ne : ∀ i j : Fin 4, i ≠ j →
    (segHead i).data.take 16 ≠ (segHead j).data.take 16 := by decide

theorem articles_list_shape (p l : ℤ) (t a f : Option String) :
    ∃ tail : String,
      CacheKeys.articles_list p l t a f = segHead (filterKind t a f) ++ tail := by
  unfold CacheKeys.articles_list filterKind
  cases ht : pyTruthy t
  case true =>
    refine ⟨t.getD "" ++ (":page:" ++ (toString p ++ (":limit:" ++ toString l))), ?_⟩
    simp only [ht, if_true]
    apply strExt
    simp only [String.data_append]
    rw [← List.append_assoc ("articles:list:".data) ("tag:".data),
      (by decide : "articles:list:".data ++ "tag:".data = "articles:list:tag:".data)]
    simp [List.append_assoc, (by decide : (segHead 0).data = "articles:list:tag:".data)]
  case false =>
    cases ha : pyTruthy a
    case true =>
      refine ⟨a.getD "" ++ (":page:" ++ (toString p ++ (":limit:" ++ toString l))), ?_⟩
      simp only [ht, ha, if_true, if_false, Bool.false_eq_true]
      apply strExt
      simp only [String.data_append]
      rw [← List.append_assoc ("articles:list:".data) ("author:".data),
        (by decide : "articles:list:".data ++ "author:".data = "articles:list:author:".data)]
      simp [List.append_assoc, (by decide : (segHead 1).data = "articles:list:author:".data)]
    case false =>
      cases hf : pyTruthy f
      case true =>
        refine ⟨f.getD "" ++ (":page:" ++ (toString p ++ (":limit:" ++ toString l))), ?_⟩
        simp only [ht, ha, hf, if_true, if_false, Bool.false_eq_true]
        apply strExt
        simp only [String.data_append]
        rw [← List.append_assoc ("articles:list:".data) ("favorited:".data),
          (by decide :
            "articles:list:".data ++ "favorited:".data = "articles:list:favorited:".data)]
        simp [List.append_assoc,
          (by decide : (segHead 2).data = "articles:list:favorited:".data)]
      case false =>
        refine ⟨"page:" ++ (toString p ++ (":limit:" ++ toString l)), ?_⟩
        simp only [ht, ha, hf, if_false, Bool.false_eq_true]
        apply strExt
        simp only [String.data_append]
        rw [(by decide :
          ("articles:list:".data ++ "all".data) ++ ":page:".data =
            "articles:list:all:".data ++ "page:".data)]
        simp [List.append_assoc, (by decide : (segHead 3).data = "articles:list:all:".data)]

/-- C8: the articles-list key builder is deterministic (equal parameter
tuples give equal strings), and two calls that select different filter
segments (by the source precedence tag, then author, then favorited, then
none) never produce the same key for the same page and limit: the four
possible segment heads already differ within the first 16 characters. -/
theorem articles_list_key_distinct (p l : ℤ) (t₁ a₁ f₁ t₂ a₂ f₂ : Option String)
    (hk : filterKind t₁ a₁ f₁ ≠ filterKind t₂ a₂ f₂) :
    CacheKeys.articles_list p l t₁ a₁ f₁ = CacheKeys.articles_list p l t₁ a₁ f₁ ∧
    CacheKeys.articles_list p l t₁ a₁ f₁ ≠ CacheKeys.articles_list p l t₂ a₂ f₂ := by
  refine ⟨rfl, ?_⟩
  obtain ⟨s₁, h₁⟩ := articles_list_shape p l t₁ a₁ f₁
  obtain ⟨s₂, h₂⟩ := articles_list_shape p l t₂ a₂ f₂
  rw [h₁, h₂]
  intro he
  apply segHead_take16_ne _ _ hk
  have hd := congrArg (fun s : String => s.data.take 16) he
  simp only [String.data_append] at hd
  rw [List.take_append_of_le_length (segHead_len16 _),
    List.take_append_of_le_length (segHead_len16 _)] at hd
  exact hd

/-- C8 witness: a tag filter and an author filter with the same value,
page and limit give different keys. -/
theorem articles_list_key_distinct_witness :
    filterKind (some "x") none none ≠ filterKind none (some "x") none ∧
    CacheKeys.articles_list 1 20 (some "x") none none ≠
      CacheKeys.articles_list 1 20 none (some "x") none :=
  ⟨by decide,
   (articles_list_key_distinct 1 20 (some "x") none none none (some "x") none (by decide)).2⟩

/-! ### Rate limiter arithmetic helpers -/

theorem pyInt_intCast (n : ℤ) : pyInt ((n : ℤ) : ℚ) = n := by
  simp [pyInt, Rat.num_intCast, Rat.den_intCast, Int.tdiv_one]

theorem pyInt_natCast (n : ℕ) : pyInt ((n : ℕ) : ℚ) = (n : ℤ) := by
  have h : ((n : ℕ) : ℚ) = ((n : ℤ) : ℚ) := by push_cast; ring
  rw [h, pyInt_intCast]

theorem pyInt_eq_floor (q : ℚ) (h : 0 ≤ q) : pyInt q = ⌊q⌋ := by
  rw [Rat.floor_def]
  exact Int.tdiv_eq_ediv (Rat.num_nonneg.mpr h) (by positivity)

theorem pyInt_nonneg (q : ℚ) (h : 0 ≤ q) : 0 ≤ pyInt q := by
  rw [pyInt_eq_floor q h]
  exact Int.floor_nonneg.mpr h

theorem currentWindow_le (now : ℚ) (window : ℤ) (hw : 0 < window) (hnow : 0 ≤ now) :
    ((Int.fdiv (pyInt now) window * window : ℤ) : ℚ) ≤ now := by
  have hfl : pyInt now = ⌊now⌋ := pyInt_eq_floor now hnow
  have h1 := Int.fdiv_add_fmod (pyInt now) window
  have h2 : 0 ≤ Int.fmod (pyInt now) window :=
    Int.fmod_nonneg (by rw [hfl]; exact Int.floor_nonneg.mpr hnow) hw.le
  have hc1 : Int.fdiv (pyInt now) window * window ≤ pyInt now := by
    rw [mul_comm]; omega
  have hc2 : ((Int.fdiv (pyInt now) window * window : ℤ) : ℚ) ≤ ((pyInt now : ℤ) : ℚ) := by
    exact_mod_cast hc1
  refine hc2.trans ?_
  rw [hfl]
  exact Int.floor_le now

theorem currentWindow_gt (now : ℚ) (window : ℤ) (hw : 0 < window) (hnow : 0 ≤ now) :
    now < ((Int.fdiv (pyInt now) window * window + window : ℤ) : ℚ) := by
  have hfl : pyInt now = ⌊now⌋ := pyInt_eq_floor now hnow
  have h1 := Int.fdiv_add_fmod (pyInt now) window
  have h3 : Int.fmod (pyInt now) window < window := Int.fmod_lt_of_pos (pyInt now) hw
  have hc2 : pyInt now + 1 ≤ Int.fdiv (pyInt now) window * window + window := by
    rw [mul_comm]; omega
  have hnow1 : now < ((pyInt now : ℤ) : ℚ) + 1 := by
    rw [hfl]; exact Int.lt_floor_add_one now
  calc now < ((pyInt now : ℤ) : ℚ) + 1 := hnow1
    _ = ((pyInt now + 1 : ℤ) : ℚ) := by push_cast; ring
    _ ≤ _ := by exact_mod_cast hc2

theorem floor_div_eq_fdiv (now : ℚ) (window : ℤ) (hw : 0 < window) (hnow : 0 ≤ now) :
    ⌊now / (window : ℚ)⌋ = Int.fdiv (pyInt now) window := by
  have hwq : (0 : ℚ) < (window : ℚ) := by exact_mod_cast hw
  rw [Int.floor_eq_iff]
  constructor
  · rw [le_div_iff₀ hwq]
    have := currentWindow_le now window hw hnow
    push_cast at this ⊢
    linarith
  · rw [div_lt_iff₀ hwq]
    have := currentWindow_gt now window hw hnow
    push_cast at this ⊢
    linarith

/-- Evaluation of `check` at an integer instant when the previous-window
counter is absent: the weighted count collapses to the current counter. -/
theorem check_eval_int (store : RLStore) (identifier endpoint : String)
    (limit window t : ℤ)
    (hprev : getCount store identifier endpoint
      (Int.fdiv t window * window - window) = 0) :
    check store identifier endpoint limit window ((t : ℤ) : ℚ) =
      ((decide ((getCount store identifier endpoint (Int.fdiv t window * window) : ℚ) <
          (limit : ℚ)),
        ⟨limit,
          max 0 (limit -
            (getCount store identifier endpoint (Int.fdiv t window * window) : ℤ) -
            (if decide ((getCount store identifier endpoint
                (Int.fdiv t window * window) : ℚ) < (limit : ℚ)) = true then 1 else 0)),
          Int.fdiv t window * window + window⟩),
        if decide ((getCount store identifier endpoint
            (Int.fdiv t window * window) : ℚ) < (limit : ℚ)) = true then
          rlExpire
            (rlIncr store (generateKey identifier endpoint (Int.fdiv t window * window)))
            (generateKey identifier endpoint (Int.fdiv t window * window)) (window * 2)
        else store) := by
  simp only [check, pyInt_intCast, hprev, Nat.cast_zero, zero_mul, add_zero, pyInt_natCast]

/-! ### Claim C1 — sliding-window admission rule and the concrete scenario -/

/-- C1: with a positive window and a nonnegative clock, `check` admits the
request exactly when
`current_count + previous_count * (1 - (now - current_window)/window) < limit`
with `current_window = floor(now / window) * window` and missing counters
reading as 0 (the reads are the `getCount` terms); and in the concrete
scenario `window = 10`, `limit = 5` with no previous-window traffic, five
requests at t = 0,1,2,3,4 are admitted, the sixth at t = 4 is rejected
with `reset_time = 10`, and the middleware retry computation
`int(reset_time - now)` gives 6. -/
theorem check_weighted_admission (store : RLStore) (identifier endpoint : String)
    (limit window : ℤ) (now : ℚ) (hw : 0 < window) (hnow : 0 ≤ now) :
    ((check store identifier endpoint limit window now).1.1 = true ↔
      (getCount store identifier endpoint (⌊now / (window : ℚ)⌋ * window) : ℚ) +
        (getCount store identifier endpoint (⌊now / (window : ℚ)⌋ * window - window) : ℚ) *
          (1 - (now - ((⌊now / (window : ℚ)⌋ * window : ℤ) : ℚ)) / (window : ℚ)) <
        (limit : ℚ)) ∧
    (runChecks "client" "/api/articles" 5 10 [0, 1, 2, 3, 4, 4] []).2.map (fun r => r.1) =
      [true, true, true, true, true, false] ∧
    (runChecks "client" "/api/articles" 5 10 [0, 1, 2, 3, 4, 4] []).2.getLast? =
      some (false, ⟨5, 0, 10⟩) ∧
    pyInt ((10 : ℚ) - 4) = 6 := by
  have e0 : check [] "client" "/api/articles" 5 10 (0 : ℚ) =
      ((true, ⟨5, 4, 10⟩), [("rate_limit:client:/api/articles:0", 1, 20)]) := by
    rw [show (0 : ℚ) = ((0 : ℤ) : ℚ) by norm_num,
      check_eval_int [] "client" "/api/articles" 5 10 0 (by decide)]
    decide
  have e1 : check [("rate_limit:client:/api/articles:0", 1, 20)]
      "client" "/api/articles" 5 10 (1 : ℚ) =
      ((true, ⟨5, 3, 10⟩), [("rate_limit:client:/api/articles:0", 2, 20)]) := by
    rw [show (1 : ℚ) = ((1 : ℤ) : ℚ) by norm_num,
      check_eval_int _ "client" "/api/articles" 5 10 1 (by decide)]
    decide
  have e2 : check [("rate_limit:client:/api/articles:0", 2, 20)]
      "client" "/api/articles" 5 10 (2 : ℚ) =
      ((true, ⟨5, 2, 10⟩), [("rate_limit:client:/api/articles:0", 3, 20)]) := by
    rw [show (2 : ℚ) = ((2 : ℤ) : ℚ) by norm_num,
      check_eval_int _ "client" "/api/articles" 5 10 2 (by decide)]
    decide
  have e3 : check [("rate_limit:client:/api/articles:0", 3, 20)]
      "client" "/api/articles" 5 10 (3 : ℚ) =
      ((true, ⟨5, 1, 10⟩), [("rate_limit:client:/api/articles:0", 4, 20)]) := by
    rw [show (3 : ℚ) = ((3 : ℤ) : ℚ) by norm_num,
      check_eval_int _ "client" "/api/articles" 5 10 3 (by decide)]
    decide
  have e4 : check [("rate_limit:client:/api/articles:0", 4, 20)]
      "client" "/api/articles" 5 10 (4 : ℚ) =
      ((true, ⟨5, 0, 10⟩), [("rate_limit:client:/api/articles:0", 5, 20)]) := by
    rw [show (4 : ℚ) = ((4 : ℤ) : ℚ) by norm_num,
      check_eval_int _ "client" "/api/articles" 5 10 4 (by decide)]
    decide
  have e5 : check [("rate_limit:client:/api/articles:0", 5, 20)]
      "client" "/api/articles" 5 10 (4 : ℚ) =
      ((false, ⟨5, 0, 10⟩), [("rate_limit:client:/api/articles:0", 5, 20)]) := by
    rw [show (4 : ℚ) = ((4 : ℤ) : ℚ) by norm_num,
      check_eval_int _ "client" "/api/articles" 5 10 4 (by decide)]
    decide
  have hsc : runChecks "client" "/api/articles" 5 10 [0, 1, 2, 3, 4, 4] [] =
      ([("rate_limit:client:/api/articles:0", 5, 20)],
       [(true, ⟨5, 4, 10⟩), (true, ⟨5, 3, 10⟩), (true, ⟨5, 2, 10⟩),
        (true, ⟨5, 1, 10⟩), (true, ⟨5, 0, 10⟩), (false, ⟨5, 0, 10⟩)]) := by
    simp [runChecks, e0, e1, e2, e3, e4, e5]
  refine ⟨?_, ?_, ?_, ?_⟩
  · rw [floor_div_eq_fdiv now window hw hnow]
    simp only [check, decide_eq_true_eq]
  · rw [hsc]
    decide
  · rw [hsc]
    decide
  · rw [show (10 : ℚ) - 4 = ((6 : ℤ) : ℚ) by norm_num, pyInt_intCast]

/-- C1 witness: the hypotheses hold at window 10, now 1, and the scenario
admits five requests and rejects the sixth. -/
theorem check_weighted_admission_witness :
    (0 : ℤ) < 10 ∧ (0 : ℚ) ≤ 1 ∧
    (runChecks "client" "/api/articles" 5 10 [0, 1, 2, 3, 4, 4] []).2.map (fun r => r.1) =
      [true, true, true, true, true, false] :=
  ⟨by decide, by decide,
   (check_weighted_admission [] "c" "e" 5 10 1 (by decide) (by decide)).2.1⟩

/-! ### Claim C10 — remaining stays within [0, limit] -/

/-- C10: with a positive window, a nonnegative limit and a nonnegative
clock, the `remaining` field of the decision returned by `check` satisfies
`0 ≤ remaining ≤ limit`: the elapsed fraction of the current window lies
in [0, 1), so the weighted count is nonnegative and the clamped
subtraction never leaves the range. -/
theorem check_remaining_bounds (store : RLStore) (identifier endpoint : String)
    (limit window : ℤ) (now : ℚ) (hw : 0 < window) (hl : 0 ≤ limit) (hnow : 0 ≤ now) :
    0 ≤ ((check store identifier endpoint limit window now).1.2).remaining ∧
    ((check store identifier endpoint limit window now).1.2).remaining ≤ limit := by
  have hwq : (0 : ℚ) < (window : ℚ) := by exact_mod_cast hw
  have hub := currentWindow_gt now window hw hnow
  have hp1 : (now - ((Int.fdiv (pyInt now) window * window : ℤ) : ℚ)) / (window : ℚ) ≤ 1 := by
    rw [div_le_one₀ hwq]
    push_cast at hub ⊢
    linarith
  have hwnn : (0 : ℚ) ≤
      (getCount store identifier endpoint (Int.fdiv (pyInt now) window * window) : ℚ) +
        (getCount store identifier endpoint
            (Int.fdiv (pyInt now) window * window - window) : ℚ) *
          (1 - (now - ((Int.fdiv (pyInt now) window * window : ℤ) : ℚ)) / (window : ℚ)) := by
    have h1 : (0 : ℚ) ≤
        1 - (now - ((Int.fdiv (pyInt now) window * window : ℤ) : ℚ)) / (window : ℚ) := by
      linarith
    positivity
  have hge := pyInt_nonneg _ hwnn
  simp only [check]
  constructor
  · exact le_max_left 0 _
  · refine max_le hl ?_
    split <;> omega

/-- C10 witness: at store [], limit 5, window 10, now 1, the hypotheses
hold and the bounds follow. -/
theorem check_remaining_bounds_witness :
    (0 : ℤ) < 10 ∧ (0 : ℤ) ≤ 5 ∧ (0 : ℚ) ≤ 1 ∧
    0 ≤ ((check [] "c" "e" 5 10 1).1.2).remaining ∧
    ((check [] "c" "e" 5 10 1).1.2).remaining ≤ 5 :=
  ⟨by decide, by decide, by decide,
   (check_remaining_bounds [] "c" "e" 5 10 1 (by decide) (by decide) (by decide)).1,
   (check_remaining_bounds [] "c" "e" 5 10 1 (by decide) (by decide) (by decide)).2⟩

/-! ### Claim C7 — middleware headers and the 429 response -/

theorem headerGet_headerSet_self (hs : List (String × String)) (k v : String) :
    headerGet (headerSet hs k v) k = some v := by
  induction hs with
  | nil => simp [headerSet, headerGet]
  | cons e rest ih =>
    by_cases h : e.1 = k <;> simp [headerSet, headerGet, h, ih]

theorem headerGet_headerSet_other (hs : List (String × String)) (k k' v : String)
    (hne : k' ≠ k) : headerGet (headerSet hs k v) k' = headerGet hs k' := by
  induction hs with
  | nil => simp [headerSet, headerGet, Ne.symm hne]
  | cons e rest ih =>
    by_cases h : e.1 = k
    · simp [headerSet, headerGet, h, Ne.symm hne]
    · simp [headerSet, headerGet, h, ih]

/-- C7 counterexample: a response for a static-prefixed path and a
response for a path with no configured quota (resolved limit 0) leave the
middleware without any X-RateLimit headers, so not every response carries
them. -/
theorem middleware_headers_counterexample :
    headerGet (dispatch ⟨"/static/app.js", none, "1.2.3.4", none⟩ 0 [] ⟨200, [], none⟩).1.headers
      "X-RateLimit-Limit" = none ∧
    headerGet (dispatch ⟨"/foo", none, "1.2.3.4", none⟩ 0 [] ⟨200, [], none⟩).1.headers
      "X-RateLimit-Limit" = none := by
  constructor <;> decide

/-- C7 (amended): every response for a metered request (path not under the
static prefix and resolved quota limit nonzero) carries the
X-RateLimit-Limit, X-RateLimit-Remaining and X-RateLimit-Reset headers
with the decision values, and a rejected request is answered with status
429 and a JSON body holding error, message, and
retry_after = int(reset_time - now). -/
theorem middleware_headers_spec (req : PyRequest) (now : ℚ) (store : RLStore)
    (nextResp : PyResponse)
    (hstatic : pyStartsWith req.path "/static" = false)
    (hlim : (getRateLimitConfig limit_configs req.path).limit ≠ 0) :
    headerGet (dispatch req now store nextResp).1.headers "X-RateLimit-Limit" =
      some (toString (middlewareDecision req now store).2.limit) ∧
    headerGet (dispatch req now store nextResp).1.headers "X-RateLimit-Remaining" =
      some (toString (middlewareDecision req now store).2.remaining) ∧
    headerGet (dispatch req now store nextResp).1.headers "X-RateLimit-Reset" =
      some (toString (middlewareDecision req now store).2.reset_time) ∧
    ((middlewareDecision req now store).1 = false →
      (dispatch req now store nextResp).1.status = 429 ∧
      (dispatch req now store nextResp).1.body =
        some (Json.obj (fieldsOfJson
          [("error", Json.str "rate_limit_exceeded"),
           ("message", Json.str "Too many requests. Please try again later."),
           ("retry_after",
            Json.num (pyInt (((middlewareDecision req now store).2.reset_time : ℚ) - now)))]))) := by
  have hbeq : ((getRateLimitConfig limit_configs req.path).limit == 0) = false := by
    rw [beq_eq_false_iff_ne]
    exact hlim
  cases hal : (middlewareDecision req now store).1 <;>
    · simp only [dispatch, middlewareDecision, hstatic, hbeq, Bool.false_eq_true, if_false]
      simp only [middlewareDecision] at hal
      simp only [hal, if_true, if_false, Bool.false_eq_true, Bool.true_eq_false]
      refine ⟨?_, ?_, ?_, ?_⟩ <;>
        simp [headerGet_headerSet_self, headerGet_headerSet_other, rateLimitResponse]

/-- C7 witness: a metered login request gets the limit header. -/
theorem middleware_headers_spec_witness :
    pyStartsWith "/api/users/login" "/static" = false ∧
    (getRateLimitConfig limit_configs "/api/users/login").limit ≠ 0 ∧
    headerGet (dispatch ⟨"/api/users/login", none, "9.9.9.9", none⟩ 0 [] ⟨200, [], none⟩).1.headers
      "X-RateLimit-Limit" =
      some (toString (middlewareDecision ⟨"/api/users/login", none, "9.9.9.9", none⟩ 0 []).2.limit) :=
  ⟨by decide, by decide,
   (middleware_headers_spec ⟨"/api/users/login", none, "9.9.9.9", none⟩ 0 [] ⟨200, [], none⟩
     (by decide) (by decide)).1⟩

/-! ### Claims C2 and C9 — the cache-aside wrapper -/

theorem storeGet_setex_self (s : CacheStore) (k : String) (t : ℕ) (v : String) :
    storeGet (setex s k t v) k = some v := by
  induction s with
  | nil => simp [setex, storeGet]
  | cons e rest ih => by_cases h : e.1 = k <;> simp [setex, storeGet, h, ih]

theorem render_obj_ne_empty (fs : JsonFields) : Json.render (Json.obj fs) ≠ "" := by
  intro h
  have hd := congrArg String.data h
  simp [Json.render, String.data_append] at hd

theorem str_ne_empty_isEmpty {s : String} (h : s ≠ "") : s.data.isEmpty = false := by
  cases hd : s.data with
  | nil => exact absurd (strExt (by simp [hd])) h
  | cons a l => rfl

/-- The hit path of the wrapper. -/
theorem cacheWrapper_hit {α : Type} (settings : AppSettings) (keyPattern : String)
    (ttl : Option ℕ) (shape : RetShape) (parseRaw : String → Option α)
    (jsonLoads : String → Option Json) (encode : α → JsonFields)
    (f : List String → List (String × String) → PyVal α)
    (args : List String) (kwargs : List (String × String)) (st : CacheState)
    (cache_key cached : String)
    (hen : settings.cache_enabled = true)
    (hkey : formatKey keyPattern kwargs = some cache_key)
    (hc : storeGet st.store cache_key = some cached) (hne : cached ≠ "") :
    cacheWrapperRun settings keyPattern ttl shape parseRaw jsonLoads encode f args kwargs st =
      (hitValue shape parseRaw jsonLoads cached, ⟨st.store, st.hits + 1, st.misses⟩, 0) := by
  simp [cacheWrapperRun, wrapperCacheKey, hen, hkey, hc, str_ne_empty_isEmpty hne]

/-- The miss path of the wrapper for a non-None result. -/
theorem cacheWrapper_miss_store {α : Type} (settings : AppSettings) (keyPattern : String)
    (ttl : Option ℕ) (shape : RetShape) (parseRaw : String → Option α)
    (jsonLoads : String → Option Json) (encode : α → JsonFields)
    (f : List String → List (String × String) → PyVal α)
    (args : List String) (kwargs : List (String × String)) (st : CacheState)
    (cache_key : String) (r : PyVal α)
    (hen : settings.cache_enabled = true)
    (hkey : formatKey keyPattern kwargs = some cache_key)
    (hc : storeGet st.store cache_key = none)
    (hr : f args kwargs = r) (hnn : r ≠ PyVal.none) :
    cacheWrapperRun settings keyPattern ttl shape parseRaw jsonLoads encode f args kwargs st =
      (some r,
       ⟨setex st.store cache_key (ttl.getD settings.cache_default_ttl)
          (serializeResult encode r), st.hits, st.misses + 1⟩, 1) := by
  cases r with
  | none => exact absurd rfl hnn
  | model m =>
    simp only [cacheWrapperRun, cacheWrapperRun.cacheMissRun, wrapperCacheKey, hen, hkey, hc,
      Bool.not_true, Bool.false_eq_true, if_false, hr]
  | listModel l =>
    simp only [cacheWrapperRun, cacheWrapperRun.cacheMissRun, wrapperCacheKey, hen, hkey, hc,
      Bool.not_true, Bool.false_eq_true, if_false, hr]
  | other j =>
    simp only [cacheWrapperRun, cacheWrapperRun.cacheMissRun, wrapperCacheKey, hen, hkey, hc,
      Bool.not_true, Bool.false_eq_true, if_false, hr]

/-- The miss path of the wrapper for a None result. -/
theorem cacheWrapper_miss_none {α : Type} (settings : AppSettings) (keyPattern : String)
    (ttl : Option ℕ) (shape : RetShape) (parseRaw : String → Option α)
    (jsonLoads : String → Option Json) (encode : α → JsonFields)
    (f : List String → List (String × String) → PyVal α)
    (args : List String) (kwargs : List (String × String)) (st : CacheState)
    (cache_key : String)
    (hen : settings.cache_enabled = true)
    (hkey : formatKey keyPattern kwargs = some cache_key)
    (hc : storeGet st.store cache_key = none)
    (hr : f args kwargs = PyVal.none) :
    cacheWrapperRun settings keyPattern ttl shape parseRaw jsonLoads encode f args kwargs st =
      (some PyVal.none, ⟨st.store, st.hits, st.misses + 1⟩, 1) := by
  simp only [cacheWrapperRun, cacheWrapperRun.cacheMissRun, wrapperCacheKey, hen, hkey, hc,
    Bool.not_true, Bool.false_eq_true, if_false, hr]

/-- C2 counterexample, against the claim as stated.  First run: the store
holds a value (the empty string) under the rendered key, yet the wrapper
records a miss and invokes the wrapped function once, because the source
tests Python truthiness of the cached payload, not presence.  Second run:
a list result is stored, but the stored payload is a JSON array of
JSON-encoded strings, not the JSON array of JSON objects the claim
describes. -/
theorem cache_wrapper_counterexample :
    (cacheWrapperRun ⟨true, 300⟩ "k" none RetShape.other (fun _ => (none : Option ℤ))
        (fun _ => none) (fun z => JsonFields.cons "value" (Json.num z) JsonFields.nil)
        (fun _ _ => PyVal.other (Json.num 1)) [] []
        ⟨[("k", 300, "")], 0, 0⟩).2.2 = 1 ∧
    (cacheWrapperRun ⟨true, 300⟩ "k" none RetShape.other (fun _ => (none : Option ℤ))
        (fun _ => none) (fun z => JsonFields.cons "value" (Json.num z) JsonFields.nil)
        (fun _ _ => PyVal.other (Json.num 1)) [] []
        ⟨[("k", 300, "")], 0, 0⟩).2.1.misses = 1 ∧
    (cacheWrapperRun ⟨true, 300⟩ "k" none RetShape.other (fun _ => (none : Option ℤ))
        (fun _ => none) (fun z => JsonFields.cons "value" (Json.num z) JsonFields.nil)
        (fun _ _ => PyVal.other (Json.num 1)) [] []
        ⟨[("k", 300, "")], 0, 0⟩).2.1.hits = 0 ∧
    storeGet (cacheWrapperRun ⟨true, 300⟩ "k" none RetShape.listModel
        (fun _ => (none : Option ℤ)) (fun _ => none)
        (fun z => JsonFields.cons "value" (Json.num z) JsonFields.nil)
        (fun _ _ => PyVal.listModel [7]) [] [] ⟨[], 0, 0⟩).2.1.store "k" =
      some "[\"\x7b\\\"value\\\": 7\x7d\"]" ∧
    specListSerialization (fun z => JsonFields.cons "value" (Json.num z) JsonFields.nil)
        [(7 : ℤ)] = "[\x7b\"value\": 7\x7d]" ∧
    ("[\"\x7b\\\"value\\\": 7\x7d\"]" : String) ≠ "[\x7b\"value\": 7\x7d]" := by
  refine ⟨by decide, by decide, by decide, by decide, by decide, by decide⟩

/-- C2 (amended): with caching enabled and the key rendered, a hit on a
non-empty stored value records a hit, deserializes by the declared return
shape, and does not invoke the wrapped function; a miss records a miss,
invokes it once, and stores a non-None result under the explicit or
default TTL, serialized as a JSON object for a model result and as a JSON
array of JSON-encoded strings for a nonempty list of models (a None
result is returned without a store write). -/
theorem cache_wrapper_spec {α : Type} (settings : AppSettings) (keyPattern : String)
    (ttl : Option ℕ) (shape : RetShape) (parseRaw : String → Option α)
    (jsonLoads : String → Option Json) (encode : α → JsonFields)
    (f : List String → List (String × String) → PyVal α)
    (args : List String) (kwargs : List (String × String)) (st : CacheState)
    (cache_key : String)
    (hen : settings.cache_enabled = true)
    (hkey : formatKey keyPattern kwargs = some cache_key) :
    (∀ cached : String, storeGet st.store cache_key = some cached → cached ≠ "" →
      cacheWrapperRun settings keyPattern ttl shape parseRaw jsonLoads encode f args kwargs st =
        (hitValue shape parseRaw jsonLoads cached, ⟨st.store, st.hits + 1, st.misses⟩, 0)) ∧
    (storeGet st.store cache_key = none → f args kwargs = PyVal.none →
      cacheWrapperRun settings keyPattern ttl shape parseRaw jsonLoads encode f args kwargs st =
        (some PyVal.none, ⟨st.store, st.hits, st.misses + 1⟩, 1)) ∧
    (∀ r : PyVal α, storeGet st.store cache_key = none → f args kwargs = r →
      r ≠ PyVal.none →
      cacheWrapperRun settings keyPattern ttl shape parseRaw jsonLoads encode f args kwargs st =
        (some r,
         ⟨setex st.store cache_key (ttl.getD settings.cache_default_ttl)
            (serializeResult encode r), st.hits, st.misses + 1⟩, 1)) ∧
    (∀ l : List α, l ≠ [] →
      serializeResult encode (PyVal.listModel l) =
        Json.render (Json.arr (listOfJson
          (l.map (fun m => Json.str (Json.render (Json.obj (encode m)))))))) ∧
    (∀ m : α, serializeResult encode (PyVal.model m) = Json.render (Json.obj (encode m))) := by
  refine ⟨?_, ?_, ?_, ?_, ?_⟩
  · intro cached hc hne
    exact cacheWrapper_hit settings keyPattern ttl shape parseRaw jsonLoads encode f args
      kwargs st cache_key cached hen hkey hc hne
  · intro hc hr
    exact cacheWrapper_miss_none settings keyPattern ttl shape parseRaw jsonLoads encode f
      args kwargs st cache_key hen hkey hc hr
  · intro r hc hr hnn
    exact cacheWrapper_miss_store settings keyPattern ttl shape parseRaw jsonLoads encode f
      args kwargs st cache_key r hen hkey hc hr hnn
  · intro l hl
    simp [serializeResult, hl]
  · intro m
    rfl

/-- C2 witness: a concrete miss stores the serialized model under the
default TTL and the function is invoked once. -/
theorem cache_wrapper_spec_witness :
    (⟨true, 300⟩ : AppSettings).cache_enabled = true ∧
    formatKey "item:\x7bid\x7d" [("id", "42")] = some "item:42" ∧
    cacheWrapperRun ⟨true, 300⟩ "item:\x7bid\x7d" none RetShape.model
        (fun _ => (none : Option ℤ)) (fun _ => none)
        (fun z => JsonFields.cons "n" (Json.num z) JsonFields.nil)
        (fun _ _ => PyVal.model 7) [] [("id", "42")] ⟨[], 0, 0⟩ =
      (some (PyVal.model 7),
       ⟨[("item:42", 300, "\x7b\"n\": 7\x7d")], 0, 1⟩, 1) := by
  refine ⟨rfl, by decide, ?_⟩
  have h := (cache_wrapper_spec ⟨true, 300⟩ "item:\x7bid\x7d" none RetShape.model
    (fun _ => (none : Option ℤ)) (fun _ => none)
    (fun z => JsonFields.cons "n" (Json.num z) JsonFields.nil)
    (fun _ _ => PyVal.model 7) [] [("id", "42")] ⟨[], 0, 0⟩ "item:42"
    rfl (by decide)).2.2.1 (PyVal.model 7) (by decide) rfl (by intro hx; cases hx)
  rw [h]
  rfl

/-- C9: the rendered cache key depends only on the keyword arguments, so
two invocations of the same wrapped function with the same keyword
arguments and different positional arguments use the same key, and the
second invocation is served the cached result computed by the first even
when the wrapped function would have returned something else for the new
positional arguments. -/
theorem cache_key_kwargs_only {α : Type} (settings : AppSettings) (keyPattern : String)
    (ttl : Option ℕ) (parseRaw : String → Option α) (jsonLoads : String → Option Json)
    (encode : α → JsonFields)
    (f : List String → List (String × String) → PyVal α)
    (args₁ args₂ : List String) (kwargs : List (String × String)) (st : CacheState)
    (cache_key : String) (v : α)
    (hen : settings.cache_enabled = true)
    (hkey : formatKey keyPattern kwargs = some cache_key)
    (hmiss : storeGet st.store cache_key = none)
    (hres : f args₁ kwargs = PyVal.model v)
    (hrt : parseRaw (Json.render (Json.obj (encode v))) = some v) :
    wrapperCacheKey keyPattern args₁ kwargs = wrapperCacheKey keyPattern args₂ kwargs ∧
    (cacheWrapperRun settings keyPattern ttl RetShape.model parseRaw jsonLoads encode f
        args₁ kwargs st).1 = some (PyVal.model v) ∧
    (cacheWrapperRun settings keyPattern ttl RetShape.model parseRaw jsonLoads encode f
        args₂ kwargs
        (cacheWrapperRun settings keyPattern ttl RetShape.model parseRaw jsonLoads encode f
          args₁ kwargs st).2.1).1 = some (PyVal.model v) ∧
    (cacheWrapperRun settings keyPattern ttl RetShape.model parseRaw jsonLoads encode f
        args₂ kwargs
        (cacheWrapperRun settings keyPattern ttl RetShape.model parseRaw jsonLoads encode f
          args₁ kwargs st).2.1).2.2 = 0 := by
  have h1 := cacheWrapper_miss_store settings keyPattern ttl RetShape.model parseRaw
    jsonLoads encode f args₁ kwargs st cache_key (PyVal.model v) hen hkey hmiss hres
    (by intro hx; cases hx)
  have hser : serializeResult encode (PyVal.model v) = Json.render (Json.obj (encode v)) := rfl
  have h2 := cacheWrapper_hit settings keyPattern ttl RetShape.model parseRaw jsonLoads
    encode f args₂ kwargs
    ⟨setex st.store cache_key (ttl.getD settings.cache_default_ttl)
       (serializeResult encode (PyVal.model v)), st.hits, st.misses + 1⟩
    cache_key (Json.render (Json.obj (encode v))) hen hkey
    (by rw [show (⟨setex st.store cache_key (ttl.getD settings.cache_default_ttl)
          (serializeResult encode (PyVal.model v)), st.hits, st.misses + 1⟩ :
          CacheState).store =
        setex st.store cache_key (ttl.getD settings.cache_default_ttl)
          (serializeResult encode (PyVal.model v)) from rfl, hser, storeGet_setex_self])
    (render_obj_ne_empty (encode v))
  refine ⟨rfl, ?_, ?_, ?_⟩
  · rw [h1]
  · rw [h1]
    simp only [h2, hitValue, hrt]
    rfl
  · rw [h1]
    simp only [h2]

/-- C9 witness: the second call passes a different positional argument
(for which the wrapped function would return a different model), yet it is
served the first call's cached result without invoking the function. -/
theorem cache_key_kwargs_only_witness :
    (fun (as : List String) (_ : List (String × String)) =>
        if as.isEmpty then PyVal.model (7 : ℤ) else PyVal.model 8) ["x"] [("id", "42")] ≠
      PyVal.model 7 ∧
    (cacheWrapperRun ⟨true, 300⟩ "item:\x7bid\x7d" none RetShape.model
        (fun s => if s = "\x7b\"n\": 7\x7d" then some (7 : ℤ) else none) (fun _ => none)
        (fun z => JsonFields.cons "n" (Json.num z) JsonFields.nil)
        (fun as _ => if as.isEmpty then PyVal.model (7 : ℤ) else PyVal.model 8)
        ["x"] [("id", "42")]
        (cacheWrapperRun ⟨true, 300⟩ "item:\x7bid\x7d" none RetShape.model
          (fun s => if s = "\x7b\"n\": 7\x7d" then some (7 : ℤ) else none) (fun _ => none)
          (fun z => JsonFields.cons "n" (Json.num z) JsonFields.nil)
          (fun as _ => if as.isEmpty then PyVal.model (7 : ℤ) else PyVal.model 8)
          [] [("id", "42")] ⟨[], 0, 0⟩).2.1).1 = some (PyVal.model 7) ∧
    (cacheWrapperRun ⟨true, 300⟩ "item:\x7bid\x7d" none RetShape.model
        (fun s => if s = "\x7b\"n\": 7\x7d" then some (7 : ℤ) else none) (fun _ => none)
        (fun z => JsonFields.cons "n" (Json.num z) JsonFields.nil)
        (fun as _ => if as.isEmpty then PyVal.model (7 : ℤ) else PyVal.model 8)
        ["x"] [("id", "42")]
        (cacheWrapperRun ⟨true, 300⟩ "item:\x7bid\x7d" none RetShape.model
          (fun s => if s = "\x7b\"n\": 7\x7d" then some (7 : ℤ) else none) (fun _ => none)
          (fun z => JsonFields.cons "n" (Json.num z) JsonFields.nil)
          (fun as _ => if as.isEmpty then PyVal.model (7 : ℤ) else PyVal.model 8)
          [] [("id", "42")] ⟨[], 0, 0⟩).2.1).2.2 = 0 := by
  refine ⟨by simp, ?_, ?_⟩
  · exact (cache_key_kwargs_only ⟨true, 300⟩ "item:\x7bid\x7d" none
      (fun s => if s = "\x7b\"n\": 7\x7d" then some (7 : ℤ) else none) (fun _ => none)
      (fun z => JsonFields.cons "n" (Json.num z) JsonFields.nil)
      (fun as _ => if as.isEmpty then PyVal.model (7 : ℤ) else PyVal.model 8)
      [] ["x"] [("id", "42")] ⟨[], 0, 0⟩ "item:42" 7 rfl (by decide) rfl rfl
      (by decide)).2.2.1
  · exact (cache_key_kwargs_only ⟨true, 300⟩ "item:\x7bid\x7d" none
      (fun s => if s = "\x7b\"n\": 7\x7d" then some (7 : ℤ) else none) (fun _ => none)
      (fun z => JsonFields.cons "n" (Json.num z) JsonFields.nil)
      (fun as _ => if as.isEmpty then PyVal.model (7 : ℤ) else PyVal.model 8)
      [] ["x"] [("id", "42")] ⟨[], 0, 0⟩ "item:42" 7 rfl (by decide) rfl rfl
      (by decide)).2.2.2

/-! ### Claim C3 — invalidation completeness -/

theorem present_cons_none (rest : List (Option String)) :
    present (none :: rest) = present rest := rfl

theorem present_cons_some (k : String) (rest : List (Option String)) :
    present (some k :: rest) = k :: present rest := rfl

theorem purgeBy_false (slots : List (Option String)) :
    purgeBy (fun _ => false) slots = slots := by
  induction slots with
  | nil => rfl
  | cons s rest ih => cases s <;> simp [purgeBy, List.map_cons] at ih ⊢ <;> exact ih

theorem purgeBy_congr (P Q : String → Bool) (slots : List (Option String))
    (h : ∀ k ∈ present slots, P k = Q k) : purgeBy P slots = purgeBy Q slots := by
  induction slots with
  | nil => rfl
  | cons s rest ih =>
    cases s with
    | none =>
      simp only [purgeBy, List.map_cons] at ih ⊢
      rw [ih (fun k hk => h k (by rw [present_cons_none]; exact hk))]
    | some k =>
      simp only [purgeBy, List.map_cons] at ih ⊢
      rw [h k (by rw [present_cons_some]; exact List.mem_cons_self k _),
        ih (fun k2 hk2 => h k2 (by rw [present_cons_some]; exact List.mem_cons_of_mem k hk2))]

theorem purgeBy_purgeBy (P Q : String → Bool) (slots : List (Option String)) :
    purgeBy P (purgeBy Q slots) = purgeBy (fun k => Q k || P k) slots := by
  induction slots with
  | nil => rfl
  | cons s rest ih =>
    cases s with
    | none => simp only [purgeBy, List.map_cons] at ih ⊢; rw [ih]
    | some k =>
      by_cases hq : Q k <;> by_cases hp : P k <;>
        simp [purgeBy, List.map_cons, hq, hp] at ih ⊢ <;> exact ih

theorem present_purgeBy (P : String → Bool) (slots : List (Option String)) :
    present (purgeBy P slots) = (present slots).filter (fun k => !P k) := by
  induction slots with
  | nil => rfl
  | cons s rest ih =>
    cases s with
    | none => simpa [purgeBy, present_cons_none] using ih
    | some k =>
      by_cases h : P k <;>
        · simp only [purgeBy, List.map_cons] at ih ⊢
          simp [h, present_cons_none, present_cons_some, List.filter_cons, ih]

theorem deleteKeys_nil (slots : List (Option String)) : deleteKeys slots [] = slots := by
  rw [deleteKeys, purgeBy_congr _ (fun _ => false) _ (by simp), purgeBy_false]

theorem deleteStep_eq (slots : List (Option String)) (K : List String) :
    (if K.isEmpty then slots else deleteKeys slots K) = deleteKeys slots K := by
  cases K with
  | nil => simp [deleteKeys_nil]
  | cons a l => rfl

theorem accStep_eq (acc : ℕ) (K : List String) :
    (if K.isEmpty then acc else acc + K.length) = acc + K.length := by
  cases K with
  | nil => simp
  | cons a l => rfl

theorem drop_purgeBy (P : String → Bool) (slots : List (Option String)) (n : ℕ) :
    (purgeBy P slots).drop n = purgeBy P (slots.drop n) := by
  rw [purgeBy, purgeBy, ← List.map_drop]

theorem present_decomp (slots : List (Option String)) (cursor : ℕ) :
    present (slots.drop cursor) =
      present ((slots.drop cursor).take 100) ++ present (slots.drop (cursor + 100)) := by
  conv_lhs => rw [← List.take_append_drop 100 (slots.drop cursor)]
  rw [present, present, present, List.filterMap_append, List.drop_drop]

theorem contains_append (l₁ l₂ : List String) (a : String) :
    (l₁ ++ l₂).contains a = (l₁.contains a || l₂.contains a) := by
  by_cases h1 : a ∈ l₁ <;> by_cases h2 : a ∈ l₂ <;>
    simp [List.elem_iff, h1, h2, List.mem_append]

theorem scanDeleteLoop_spec (pattern : String) :
    ∀ (fuel : ℕ) (slots : List (Option String)) (cursor acc : ℕ),
      slots.length - cursor ≤ fuel → (present slots).Nodup →
      scanDeleteLoop pattern slots cursor acc =
        (deleteKeys slots ((present (slots.drop cursor)).filter (keyMatches pattern)),
         acc + ((present (slots.drop cursor)).filter (keyMatches pattern)).length) := by
  intro fuel
  induction fuel with
  | zero =>
    intro slots cursor acc hf hnd
    have hle : slots.length ≤ cursor := by omega
    have hdrop : slots.drop cursor = [] := List.drop_eq_nil_of_le hle
    rw [scanDeleteLoop.eq_def, hdrop]
    simp [deleteKeys_nil, present, show ¬(cursor + 100 < slots.length) by omega]
  | succ n ih =>
    intro slots cursor acc hf hnd
    rw [scanDeleteLoop.eq_def]
    simp only [show ∀ X : List (Option String), X.filterMap id = present X from fun _ => rfl]
    by_cases hc : cursor + 100 < slots.length
    · rw [if_pos hc, deleteStep_eq, accStep_eq]
      have hlen : (deleteKeys slots
          ((present ((slots.drop cursor).take 100)).filter (keyMatches pattern))).length =
          slots.length := by
        simp [deleteKeys, purgeBy]
      have hfuel : (deleteKeys slots
          ((present ((slots.drop cursor).take 100)).filter (keyMatches pattern))).length -
          (cursor + 100) ≤ n := by
        rw [hlen]; omega
      have hnd' : (present (deleteKeys slots
          ((present ((slots.drop cursor).take 100)).filter (keyMatches pattern)))).Nodup := by
        rw [deleteKeys, present_purgeBy]
        exact hnd.filter _
      rw [ih _ (cursor + 100) _ hfuel hnd']
      have hndsub : (present (slots.drop cursor)).Nodup :=
        List.Nodup.sublist ((List.drop_sublist cursor slots).filterMap id) hnd
      have hdecomp := present_decomp slots cursor
      rw [hdecomp] at hndsub
      have hd2 := List.disjoint_of_nodup_append hndsub
      have hdisj : ∀ k ∈ present (slots.drop (cursor + 100)),
          ((present ((slots.drop cursor).take 100)).filter (keyMatches pattern)).contains k
            = false := by
        intro k hk
        by_cases hkk : ((present ((slots.drop cursor).take 100)).filter
            (keyMatches pattern)).contains k = true
        · exfalso
          have hmem : k ∈ (present ((slots.drop cursor).take 100)).filter
              (keyMatches pattern) := List.elem_iff.mp hkk
          exact hd2 (List.mem_filter.mp hmem).1 hk
        · exact Bool.eq_false_iff.mpr hkk
      have hframe : (deleteKeys slots
          ((present ((slots.drop cursor).take 100)).filter (keyMatches pattern))).drop
            (cursor + 100) = slots.drop (cursor + 100) := by
        rw [deleteKeys, drop_purgeBy,
          purgeBy_congr _ (fun _ => false) _ (fun k hk => hdisj k hk), purgeBy_false]
      rw [hframe]
      have hcomb : deleteKeys (deleteKeys slots
          ((present ((slots.drop cursor).take 100)).filter (keyMatches pattern)))
          ((present (slots.drop (cursor + 100))).filter (keyMatches pattern)) =
          deleteKeys slots
            (((present ((slots.drop cursor).take 100)).filter (keyMatches pattern)) ++
              ((present (slots.drop (cursor + 100))).filter (keyMatches pattern))) := by
        rw [deleteKeys, deleteKeys, deleteKeys, purgeBy_purgeBy]
        exact purgeBy_congr _ _ _ (fun k _ => (contains_append _ _ k).symm)
      rw [hcomb]
      have hKall : (present (slots.drop cursor)).filter (keyMatches pattern) =
          ((present ((slots.drop cursor).take 100)).filter (keyMatches pattern)) ++
            ((present (slots.drop (cursor + 100))).filter (keyMatches pattern)) := by
        rw [hdecomp, List.filter_append]
      rw [hKall, List.length_append]
      exact Prod.ext rfl (by omega)
    · rw [if_neg hc]
      have htake : (slots.drop cursor).take 100 = slots.drop cursor := by
        apply List.take_of_length_le
        rw [List.length_drop]
        omega
      rw [htake, deleteStep_eq, accStep_eq]

theorem countSplit (P Q : String → Bool) (l : List String) :
    (l.filter P).length + (l.filter (fun k => Q k && !P k)).length =
      (l.filter (fun k => P k || Q k)).length := by
  induction l with
  | nil => rfl
  | cons a rest ih =>
    by_cases hp : P a <;> by_cases hq : Q a <;>
      simp [List.filter_cons, hp, hq] <;> omega

theorem invalidate_go (patterns : List String) :
    ∀ (slots : List (Option String)) (acc : ℕ), (present slots).Nodup →
      patterns.foldl (fun a pattern => scanDeleteLoop pattern a.1 0 a.2) (slots, acc) =
        (purgeBy (matchAny patterns) slots,
         acc + ((present slots).filter (matchAny patterns)).length) := by
  induction patterns with
  | nil =>
    intro slots acc hnd
    rw [List.foldl_nil,
      purgeBy_congr (matchAny []) (fun _ => false) slots (by simp [matchAny]),
      purgeBy_false]
    have hmt : (present slots).filter (matchAny []) = [] := by
      simp [matchAny]
    rw [hmt]
    simp
  | cons p ps ih =>
    intro slots acc hnd
    rw [List.foldl_cons,
      scanDeleteLoop_spec p slots.length slots 0 acc (by omega) hnd]
    simp only [List.drop_zero]
    rw [ih (deleteKeys slots ((present slots).filter (keyMatches p))) _
      (by rw [deleteKeys, present_purgeBy]; exact hnd.filter _)]
    have hcontains : ∀ k ∈ present slots,
        ((present slots).filter (keyMatches p)).contains k = keyMatches p k := by
      intro k hk
      by_cases hm : keyMatches p k
      · rw [hm]
        exact List.elem_iff.mpr (List.mem_filter.mpr ⟨hk, hm⟩)
      · rw [Bool.eq_false_iff.mpr hm]
        apply Bool.eq_false_iff.mpr
        intro hcc
        exact hm ((List.mem_filter.mp (List.elem_iff.mp hcc)).2)
    have hstore : purgeBy (matchAny ps)
        (deleteKeys slots ((present slots).filter (keyMatches p))) =
        purgeBy (matchAny (p :: ps)) slots := by
      rw [deleteKeys, purgeBy_purgeBy]
      apply purgeBy_congr
      intro k hk
      rw [hcontains k hk]
      simp [matchAny, List.any_cons]
    have hcount : ((present (deleteKeys slots ((present slots).filter (keyMatches p)))).filter
        (matchAny ps)).length =
        ((present slots).filter (fun k => matchAny ps k && !keyMatches p k)).length := by
      rw [deleteKeys, present_purgeBy, List.filter_filter]
      congr 1
      apply List.filter_congr
      intro k2 hk2
      rw [hcontains k2 hk2]
    rw [hstore, hcount]
    have hsplit := countSplit (keyMatches p) (matchAny ps) (present slots)
    have hfinal : ((present slots).filter (matchAny (p :: ps))).length =
        ((present slots).filter (fun k => keyMatches p k || matchAny ps k)).length := rfl
    rw [hfinal]
    exact Prod.ext rfl (by omega)

/-- C3: for every pattern list and every finite keyspace with distinct
present keys, `invalidate_cache` terminates with every key matching any
pattern deleted and returns exactly the number of present keys matching
at least one pattern; a pattern with no matches leaves the keyspace alone
and contributes 0 to the count. -/
theorem invalidate_cache_complete (patterns : List String) (slots : List (Option String))
    (hnd : (present slots).Nodup) :
    invalidate_cache patterns slots =
      (purgeBy (matchAny patterns) slots,
       ((present slots).filter (matchAny patterns)).length) := by
  unfold invalidate_cache
  simpa using invalidate_go patterns slots 0 hnd

/-- C3 witness: the wildcard pattern deletes both matching keys across the
keyspace, the non-matching pattern contributes 0, and the count is 2. -/
theorem invalidate_cache_complete_witness :
    (present [some "user:a", none, some "tag:b", some "user:b"]).Nodup ∧
    invalidate_cache ["user:*", "zzz"] [some "user:a", none, some "tag:b", some "user:b"] =
      ([none, none, some "tag:b", none], 2) := by
  refine ⟨by decide, ?_⟩
  rw [invalidate_cache_complete _ _ (by decide)]
  decide
